import Mathlib

/-!
Verification of the ShopCore authentication and authorization core.

The definitions below are a shallow embedding of the TypeScript source:

* `src/modules/permission.type.ts` — the static policy table (`permissions`).
* `src/core/middlewares/permission.middleware.ts` — `getPermissions`, the
  permission resolver run on each request.
* `src/core/middlewares/token.middleware.ts` — `verifyToken`, the session
  authentication middleware.
* `src/core/utils/jwt.ts` — `signJwt` / `verifyJwt` (the token capability is
  modelled abstractly: a signed token is the pair of its subject claim and its
  issue time, and verification succeeds exactly while the one-hour expiry that
  `expiresIn: "1h"` bakes into the signature has not passed).
* `src/modules/auth/auth.service.ts` — `AuthService.login` (token issuance).
* `src/modules/auth/auth.repository.ts` — `findValid`, `revoke` over the
  session store (`deleteOne` removes at most one matching record).
* `src/modules/users/user.controller.ts` — `updateUser` / `deleteUser` with
  the self-demotion / self-deletion conflict guards.
* `src/modules/users/user.model.ts` — `toJSON`, which deletes the password
  field from the serialized object.

Machine integers do not occur in this core; times and error codes are `Nat`,
strings are `String`, JavaScript arrays are `List`, and fallible operations
return `Option` or `Except`.  Stateful operations (the session store, the user
store) are explicit state passing.
-/

namespace ShopCore

/-! ## Error model (`src/core/errors/HttpError.ts` and subclasses)

Every thrown error carries a message, an HTTP status code and a numeric
`ErrorCode`.  The numeric values are the ones in the `ErrorCode` enum. -/

namespace ErrorCode

def DOCUMENT_NOT_FOUND : Nat := 1001
def DOCUMENTS_NOT_FOUND : Nat := 1002
def TOKEN_EXPIRED : Nat := 2002
def INTERNAL_SERVER_ERROR : Nat := 3001
def UNAUTHORIZED : Nat := 4001
def FORBIDDEN : Nat := 4002
def INVALID_CREDENTIALS : Nat := 4003
def SELF_DEMOTION : Nat := 7001

end ErrorCode

/-- The observable part of an `HttpError`: message, HTTP status, error code. -/
structure HttpErrorV where
  message : String
  statusCode : Nat
  errorCode : Nat
  deriving DecidableEq, Repr

/-! ## Policy table (`src/modules/permission.type.ts`) -/

/-- The `Method` enum: string enum over the four handled HTTP methods. -/
inductive Method where
  | GET
  | POST
  | PATCH
  | DELETE
  deriving DecidableEq, Repr

/-- The `Scope` enum of `permission.type.ts`. -/
inductive Scope where
  | read
  | write
  | update
  | delete
  | unknown
  deriving DecidableEq, Repr

/-- The string value of each `Scope` enum member. -/
def Scope.label : Scope → String
  | .read => "read"
  | .write => "write"
  | .update => "update"
  | .delete => "delete"
  | .unknown => "unknown"

/-- `IPermission`: one policy entry (method, scope, base permission list). -/
structure IPermission where
  method : Method
  scope : Scope
  permissions : List String
  deriving DecidableEq, Repr

/-- The hardcoded policy table `permissions` of `permission.type.ts`. -/
def permissions : List IPermission :=
  [ { method := .GET, scope := .read, permissions := ["admin_granted"] },
    { method := .POST, scope := .write, permissions := ["admin_granted"] },
    { method := .PATCH, scope := .update, permissions := ["admin_granted"] },
    { method := .DELETE, scope := .delete, permissions := ["admin_granted"] } ]

/-- `Method[method as keyof typeof Method]`: indexing the string enum object
returns the member for the four declared keys and `undefined` otherwise. -/
def methodFromString (m : String) : Option Method :=
  if m = "GET" then some .GET
  else if m = "POST" then some .POST
  else if m = "PATCH" then some .PATCH
  else if m = "DELETE" then some .DELETE
  else none

/-! ## Permission middleware data (`permission.middleware.ts`) -/

/-- A populated role reference as consumed by the middleware: only its
permission list is read (`x.permissions`). -/
structure Role where
  permissions : List String
  deriving DecidableEq, Repr

/-- `req.currentUser` as the permission middleware reads it: the mongoose
user document.  The schema defaults `permissions` to `[]` and `roles` to the
populated role list, so both fields are always arrays on a stored document. -/
structure CurrentUser where
  id : String
  permissions : List String
  roles : List Role
  deriving DecidableEq, Repr

/-- Outcome of the permission middleware: `next()` (allow) or
`next(new ForbiddenError(...))` (deny). -/
inductive Decision where
  | allow
  | forbidden
  deriving DecidableEq, Repr

/-- Helper for `jsSetDedup`: keeps the elements not yet seen, in order. -/
def jsSetDedupAux (seen : List String) : List String → List String
  | [] => []
  | x :: xs =>
      if seen.contains x then jsSetDedupAux seen xs
      else x :: jsSetDedupAux (seen ++ [x]) xs

/-- `[...new Set(l)]`: de-duplication keeping the first occurrence of each
element, in order. -/
def jsSetDedup (l : List String) : List String :=
  jsSetDedupAux [] l

/-- `req.originalUrl.split("?")[0]`: the URL up to the first question mark. -/
def stripQuery (originalUrl : String) : String :=
  String.mk (originalUrl.data.takeWhile (fun c => c ≠ '?'))

/-- `fullPath.replace(/^\/api\/v1\/([^\/]+).*:/, "$1")` (with `:` standing for
nothing — the regex is `^\/api\/v1\/([^\/]+).*`): if the path starts with
`/api/v1/` followed by at least one character other than a slash, the greedy
match replaces everything up to the end of the line with the first path
segment; a trailing part starting at a newline is outside the match (`.` does
not match newlines) and survives.  A path that does not match is returned
unchanged. -/
def extractModule (fullPath : String) : String :=
  let cs := fullPath.data
  if cs.take 8 = "/api/v1/".data then
    let rest := cs.drop 8
    let seg := rest.takeWhile (fun c => c ≠ '/')
    if seg = [] then fullPath
    else String.mk (seg ++ (rest.drop seg.length).dropWhile (fun c => c ≠ '\n'))
  else fullPath

/-- The effective required set of a request (step 3 of the spec algorithm):
the policy entry permission list, extended with the module-scoped token
`<module>_<scope>` when it is not already present.  This is the list the
middleware builds in its per-request copy `findMethod.permissions`. -/
def requiredSet (entry : IPermission) (currentModule : String) : List String :=
  let tok := currentModule ++ "_" ++ entry.scope.label
  if entry.permissions.contains tok then entry.permissions
  else entry.permissions ++ [tok]

/-- The effective permission set of an identity (step 4): the direct
(override) list when it is non-empty, otherwise the de-duplicated union of the
role permission lists (`[...new Set(roles.flatMap(x => x.permissions))]`). -/
def effectivePermissions (u : CurrentUser) : List String :=
  if u.permissions.length ≠ 0 then u.permissions
  else jsSetDedup (u.roles.flatMap (fun x => x.permissions))

/-- `getPermissions` of `permission.middleware.ts`, generalized over the
policy table it reads.  Mirrors the source line by line:
query-stripping, module extraction, policy lookup by HTTP method, the spread
copy of the matched entry, the conditional push of `<module>_<scope>` onto the
copy, the role-permission merge, the direct-permission override, and the
final `find` over the required list. -/
def getPermissionsOn (table : List IPermission) (currentUser : CurrentUser)
    (method : String) (originalUrl : String) : Decision :=
  let fullPath := stripQuery originalUrl
  let currentModule := extractModule fullPath
  let baseMethod := table.find? (fun p => some p.method == methodFromString method)
  -- { ...baseMethod, permissions: [...baseMethod.permissions] } : a copy,
  -- so the pushed token never reaches the global table
  let copied := baseMethod.map (fun b => { b with permissions := b.permissions })
  let findMethod := copied.map (fun fm =>
    if fm.permissions.contains (currentModule ++ "_" ++ fm.scope.label) then fm
    else { fm with permissions :=
            fm.permissions ++ [currentModule ++ "_" ++ fm.scope.label] })
  let mergedRolesPermissions :=
    jsSetDedup (currentUser.roles.flatMap (fun x => x.permissions))
  let userPermissions :=
    if currentUser.permissions.length ≠ 0 then currentUser.permissions
    else mergedRolesPermissions
  let permissionGranted :=
    findMethod.bind (fun fm =>
      fm.permissions.find? (fun p => userPermissions.contains p))
  if permissionGranted.isSome then .allow else .forbidden

/-- The deployed middleware reads the global table `permissions`. -/
def getPermissions (currentUser : CurrentUser) (method : String)
    (originalUrl : String) : Decision :=
  getPermissionsOn permissions currentUser method originalUrl

/-! ## Lemmas about the permission resolver -/

/-- Membership in the de-duplication helper: an element appears iff it occurs
in the remaining input and was not already seen. -/
theorem jsSetDedupAux_mem (l : List String) (seen : List String) (p : String) :
    p ∈ jsSetDedupAux seen l ↔ p ∈ l ∧ p ∉ seen := by
  induction l generalizing seen with
  | nil => simp [jsSetDedupAux]
  | cons x xs ih =>
      by_cases hx : x ∈ seen
      · have hc : seen.contains x = true := by simpa using hx
        rw [jsSetDedupAux, hc, if_pos rfl, ih]
        constructor
        · rintro ⟨hp, hs⟩
          exact ⟨List.mem_cons_of_mem _ hp, hs⟩
        · rintro ⟨hp, hs⟩
          rcases List.mem_cons.1 hp with hpx | hpx
          · exact absurd (hpx ▸ hx) hs
          · exact ⟨hpx, hs⟩
      · have hc : seen.contains x = false := by simpa using hx
        rw [jsSetDedupAux, hc]
        simp only [Bool.false_eq_true, if_false, List.mem_cons, ih, List.mem_append]
        constructor
        · rintro (hpx | ⟨hp, hs⟩)
          · exact ⟨Or.inl hpx, hpx ▸ hx⟩
          · exact ⟨Or.inr hp, fun hmem => hs (Or.inl hmem)⟩
        · rintro ⟨hpx | hp, hs⟩
          · exact Or.inl hpx
          · by_cases hpq : p = x
            · exact Or.inl hpq
            · refine Or.inr ⟨hp, fun hmem => ?_⟩
              rcases hmem with hmem | hmem
              · exact hs hmem
              · rcases hmem with hmem | hmem
                · exact hpq hmem
                · exact List.not_mem_nil p hmem

/-- The de-duplication helper never repeats an element. -/
theorem jsSetDedupAux_nodup (l : List String) (seen : List String) :
    (jsSetDedupAux seen l).Nodup := by
  induction l generalizing seen with
  | nil => simp [jsSetDedupAux]
  | cons x xs ih =>
      rw [jsSetDedupAux]
      split
      · exact ih _
      · refine List.nodup_cons.2 ⟨fun hmem => ?_, ih _⟩
        rw [jsSetDedupAux_mem] at hmem
        exact hmem.2 (by simp)

/-- `[...new Set(l)]` keeps exactly the elements of `l`. -/
theorem jsSetDedup_mem (l : List String) (p : String) :
    p ∈ jsSetDedup l ↔ p ∈ l := by
  rw [jsSetDedup, jsSetDedupAux_mem]
  simp

/-- Structural form of the middleware: look up the policy entry for the
method; with no entry the request is denied; with an entry the request is
allowed exactly when the required list has an element of the effective set. -/
theorem getPermissionsOn_spec (table : List IPermission) (u : CurrentUser)
    (m url : String) :
    getPermissionsOn table u m url =
      match table.find? (fun p => some p.method == methodFromString m) with
      | none => Decision.forbidden
      | some entry =>
          if ((requiredSet entry (extractModule (stripQuery url))).find?
                (fun p => (effectivePermissions u).contains p)).isSome
          then Decision.allow
          else Decision.forbidden := by
  cases h : table.find? (fun p => some p.method == methodFromString m) with
  | none => simp [getPermissionsOn, h]
  | some entry =>
      simp only [getPermissionsOn, h, Option.map_some', Option.some_bind]
      simp only [requiredSet, effectivePermissions]
      by_cases hc :
          (extractModule (stripQuery url) ++ "_" ++ entry.scope.label) ∈ entry.permissions
      · simp [hc]
      · simp [hc]

/-! ## Claims about the permission resolver -/

/-- C1: for every authenticated identity, HTTP method that has a policy
entry, and resource path, the resolver allows the request if and only if the
required set — the entry base permissions together with the module-scoped
token `<module>_<scope>` — and the identity effective permission set
intersect; any single shared permission string suffices. -/
theorem getPermissions_allow_iff_inter_nonempty
    (u : CurrentUser) (m url : String) (entry : IPermission)
    (h : permissions.find? (fun p => some p.method == methodFromString m) = some entry) :
    getPermissions u m url = Decision.allow ↔
      ∃ p, p ∈ requiredSet entry (extractModule (stripQuery url)) ∧
        p ∈ effectivePermissions u := by
  rw [getPermissions, getPermissionsOn_spec, h]
  dsimp only
  by_cases hfind :
      ((requiredSet entry (extractModule (stripQuery url))).find?
        (fun p => (effectivePermissions u).contains p)).isSome = true
  · rw [if_pos hfind]
    simp only [true_iff]
    rw [List.find?_isSome] at hfind
    rcases hfind with ⟨p, hp, hp2⟩
    exact ⟨p, hp, by simpa using hp2⟩
  · rw [if_neg hfind]
    constructor
    · intro hcontra
      exact absurd hcontra (by decide)
    · rintro ⟨p, hp, hp2⟩
      exact absurd (List.find?_isSome.2 ⟨p, hp, by simpa using hp2⟩) hfind

/-- C1 witness: with the `GET` policy entry, an identity holding only the
module-scoped permission `users_read` is allowed on `GET /api/v1/users`. -/
theorem getPermissions_allow_iff_inter_nonempty_witness :
    permissions.find? (fun p => some p.method == methodFromString "GET") =
      some { method := Method.GET, scope := Scope.read, permissions := ["admin_granted"] } ∧
    getPermissions { id := "u1", permissions := ["users_read"], roles := [] }
      "GET" "/api/v1/users" = Decision.allow :=
  ⟨rfl,
    (getPermissions_allow_iff_inter_nonempty
      { id := "u1", permissions := ["users_read"], roles := [] } "GET" "/api/v1/users"
      { method := Method.GET, scope := Scope.read, permissions := ["admin_granted"] }
      rfl).2 ⟨"users_read", by decide, by decide⟩⟩

/-- C2: the effective permission set the resolver uses is exactly the direct
(override) list when that list is non-empty — the decision then ignores the
role set entirely — and otherwise is the de-duplicated union of the
permissions of all roles. -/
theorem effectivePermissions_override_or_role_union
    (u : CurrentUser) (rs : List Role) (m url : String) :
    (u.permissions ≠ [] →
      effectivePermissions u = u.permissions ∧
      getPermissions { u with roles := rs } m url = getPermissions u m url) ∧
    (u.permissions = [] →
      (∀ p, p ∈ effectivePermissions u ↔ ∃ r, r ∈ u.roles ∧ p ∈ r.permissions) ∧
      (effectivePermissions u).Nodup) := by
  constructor
  · intro hne
    have hlen : u.permissions.length ≠ 0 := by
      simpa [List.length_eq_zero] using hne
    have he1 : effectivePermissions u = u.permissions := by
      simp [effectivePermissions, hlen]
    have he2 : effectivePermissions { u with roles := rs } = u.permissions := by
      simp [effectivePermissions, hlen]
    refine ⟨he1, ?_⟩
    rw [getPermissions, getPermissions, getPermissionsOn_spec, getPermissionsOn_spec,
      he1, he2]
  · intro hemp
    have hlen : ¬ u.permissions.length ≠ 0 := by simp [hemp]
    have he : effectivePermissions u
        = jsSetDedup (u.roles.flatMap (fun x => x.permissions)) := by
      simp [effectivePermissions, hlen]
    refine ⟨fun p => ?_, ?_⟩
    · rw [he, jsSetDedup_mem, List.mem_flatMap]
    · rw [he]
      exact jsSetDedupAux_nodup _ _

/-- C2 witness: an identity with direct permission `p1` keeps effective set
`[p1]`, and swapping its role set (here `admin_granted` versus `x`) does not
change the decision on `GET /api/v1/users`. -/
theorem effectivePermissions_override_or_role_union_witness :
    (["p1"] : List String) ≠ [] ∧
    (effectivePermissions
        { id := "u1", permissions := ["p1"], roles := [{ permissions := ["admin_granted"] }] }
      = ["p1"] ∧
     getPermissions { id := "u1", permissions := ["p1"], roles := [{ permissions := ["x"] }] }
        "GET" "/api/v1/users"
      = getPermissions
          { id := "u1", permissions := ["p1"], roles := [{ permissions := ["admin_granted"] }] }
          "GET" "/api/v1/users") :=
  ⟨by decide,
    (effectivePermissions_override_or_role_union
      { id := "u1", permissions := ["p1"], roles := [{ permissions := ["admin_granted"] }] }
      [{ permissions := ["x"] }] "GET" "/api/v1/users").1 (by decide)⟩

/-- C6: an HTTP method without a policy-table entry (anything outside
GET/POST/PATCH/DELETE) is denied for every identity and every path: the
resolver fails closed instead of allowing or raising. -/
theorem getPermissions_unknown_method_denies (u : CurrentUser) (m url : String)
    (h : m ∉ (["GET", "POST", "PATCH", "DELETE"] : List String)) :
    getPermissions u m url = Decision.forbidden := by
  have h1 : m ≠ "GET" := fun e => h (by simp [e])
  have h2 : m ≠ "POST" := fun e => h (by simp [e])
  have h3 : m ≠ "PATCH" := fun e => h (by simp [e])
  have h4 : m ≠ "DELETE" := fun e => h (by simp [e])
  have hm : methodFromString m = none := by
    simp [methodFromString, h1, h2, h3, h4]
  have hfind : permissions.find?
      (fun p => some p.method == methodFromString m) = none := by
    rw [hm]
    rfl
  rw [getPermissions, getPermissionsOn_spec, hfind]

/-- C6 witness: `PUT` has no policy entry, and an identity holding the
strongest permission is still denied on `PUT /api/v1/users/1`. -/
theorem getPermissions_unknown_method_denies_witness :
    ("PUT" : String) ∉ (["GET", "POST", "PATCH", "DELETE"] : List String) ∧
    getPermissions { id := "u1", permissions := ["admin_granted"], roles := [] }
      "PUT" "/api/v1/users/1" = Decision.forbidden :=
  ⟨by decide,
    getPermissions_unknown_method_denies
      { id := "u1", permissions := ["admin_granted"], roles := [] }
      "PUT" "/api/v1/users/1" (by decide)⟩

/-! ## Session manager (`auth.service.ts`, `auth.repository.ts`,
`token.middleware.ts`, `jwt.ts`) -/

/-- A bearer token string.  `jwt.sign(payload, JWT_SECRET, {expiresIn: "1h"})`
produces a string determined by the subject claim and the issue time, and
signing is injective in those; any string that is not such a signature fails
verification.  The model therefore represents a token by its content. -/
inductive TokenStr where
  | signed (sub : String) (iat : Nat)
  | other (raw : String)
  deriving DecidableEq, Repr

/-- `signJwt({ sub })` executed at time `now` (seconds). -/
def signJwt (sub : String) (now : Nat) : TokenStr :=
  TokenStr.signed sub now

/-- `verifyJwt`: yields the subject claim while the signature is valid and the
one-hour expiry has not passed; a malformed token, a bad signature or an
expired token throws (modelled as `none`). -/
def verifyJwt (t : TokenStr) (now : Nat) : Option String :=
  match t with
  | .signed sub iat => if now < iat + 3600 then some sub else none
  | .other _ => none

/-- A session document (`auth.model.ts`): token, owning user, revoked flag
(schema default `false`), creation time. -/
structure IAuth where
  token : TokenStr
  userId : String
  revoked : Bool
  createdAt : Nat
  deriving DecidableEq, Repr

/-- A user document as the auth and user modules see it (`user.model.ts`):
`password` holds the stored hash; `permissions` and `roles` default to `[]`;
`id` is the string form of the document id. -/
structure IUser where
  id : String
  name : String
  username : String
  email : String
  password : String
  permissions : List String
  roles : List String
  deriving DecidableEq, Repr

/-- `UserRepository.findOne({ email })`. -/
def findOneByEmail (users : List IUser) (email : String) : Option IUser :=
  users.find? (fun u => u.email == email)

/-- `UserRepository.findById`. -/
def findById (users : List IUser) (id : String) : Option IUser :=
  users.find? (fun u => u.id == id)

/-- `AuthRepository.findValid`: `AuthModel.findOne({ token, revoked: false })`. -/
def findValid (store : List IAuth) (token : TokenStr) : Option IAuth :=
  store.find? (fun s => s.token == token && s.revoked == false)

/-- `AuthModel.deleteOne({ token })`: removes the first matching document and
reports the deleted count (0 or 1). -/
def deleteOne : List IAuth → TokenStr → Nat × List IAuth
  | [], _ => (0, [])
  | s :: rest, t =>
      if s.token == t then (1, rest)
      else
        let r := deleteOne rest t
        (r.1, s :: r.2)

/-- `AuthRepository.revoke`: `deleteOne({ token })` and
`result.deletedCount === 1`. -/
def revoke (store : List IAuth) (token : TokenStr) : Bool × List IAuth :=
  let result := deleteOne store token
  (result.1 == 1, result.2)

/-- The single `BadRequestError("Invalid credentials", INVALID_CREDENTIALS)`
thrown by `AuthService.login`, for a missing identity and for a rejected
secret alike. -/
def invalidCredentialsLogin : HttpErrorV :=
  { message := "Invalid credentials", statusCode := 400,
    errorCode := ErrorCode.INVALID_CREDENTIALS }

/-- `AuthService.login`: look up the identity by email, verify the secret
against the stored hash with the opaque hash capability `comparePassword`,
sign a one-hour token for the user id and persist the session record
`{token, userId}` (revoked defaults to false, createdAt to now). -/
def login (comparePassword : String → String → Bool) (users : List IUser)
    (sessions : List IAuth) (email password : String) (now : Nat) :
    Except HttpErrorV (TokenStr × List IAuth) :=
  match findOneByEmail users email with
  | some user =>
      if comparePassword password user.password then
        let token := signJwt user.id now
        .ok (token,
          sessions ++ [{ token := token, userId := user.id,
                         revoked := false, createdAt := now }])
      else .error invalidCredentialsLogin
  | none => .error invalidCredentialsLogin

/-- Outcome of the `verifyToken` middleware: `next(new UnauthorizedError)`,
`next(new InternalError)` from the catch block, or `next()` with
`req.currentUser` attached (null when the subject no longer resolves). -/
inductive AuthResult where
  | unauthorized (e : HttpErrorV)
  | internalError (e : HttpErrorV)
  | ok (currentUser : Option IUser)
  deriving DecidableEq, Repr

/-- The `UnauthorizedError("Invalid credentials", INVALID_CREDENTIALS)` used
by `verifyToken` for a missing cookie and for a missing live session. -/
def invalidCredentialsAuth : HttpErrorV :=
  { message := "Invalid credentials", statusCode := 401,
    errorCode := ErrorCode.INVALID_CREDENTIALS }

/-- The `InternalError("Token verification failed", TOKEN_EXPIRED)` built in
the catch block of `verifyToken` (the `InternalError` constructor fixes the
HTTP status 500). -/
def tokenVerificationFailed : HttpErrorV :=
  { message := "Token verification failed", statusCode := 500,
    errorCode := ErrorCode.TOKEN_EXPIRED }

/-- `verifyToken` of `token.middleware.ts`: a missing `access_token` cookie is
a 401; `verifyJwt` runs inside the try block, so a verification failure is
caught and wrapped as the 500 `InternalError`; a token with no live session is
a 401; otherwise the user loaded from the token subject is attached. -/
def verifyToken (users : List IUser) (sessions : List IAuth)
    (cookieToken : Option TokenStr) (now : Nat) : AuthResult :=
  match cookieToken with
  | none => .unauthorized invalidCredentialsAuth
  | some token =>
      match verifyJwt token now with
      | none => .internalError tokenVerificationFailed
      | some sub =>
          match findValid sessions token with
          | none => .unauthorized invalidCredentialsAuth
          | some _ => .ok (findById users sub)

/-! ## Lemmas about the session store -/

/-- A predicate holding on no session of the store makes `findValid` miss. -/
theorem findValid_none_of_fresh (store : List IAuth) (t : TokenStr)
    (hfresh : ∀ s ∈ store, s.token ≠ t) :
    findValid store t = none := by
  rw [findValid, List.find?_eq_none]
  intro s hs
  simp [hfresh s hs]

/-- `findValid` finds a live record appended behind fresh sessions. -/
theorem findValid_append_fresh (store : List IAuth) (rec : IAuth) (t : TokenStr)
    (hfresh : ∀ s ∈ store, s.token ≠ t) (hrec : rec.token = t)
    (hrev : rec.revoked = false) :
    findValid (store ++ [rec]) t = some rec := by
  induction store with
  | nil => simp [findValid, hrec, hrev]
  | cons s rest ih =>
      have hs : s.token ≠ t := hfresh s (by simp)
      have htail := ih (fun x hx => hfresh x (by simp [hx]))
      rw [findValid] at htail ⊢
      rw [List.cons_append, List.find?_cons_of_neg, htail]
      simp [hs]

/-- `deleteOne` removes exactly the appended record when the sessions in
front of it carry other tokens. -/
theorem deleteOne_append_fresh (store : List IAuth) (rec : IAuth) (t : TokenStr)
    (hfresh : ∀ s ∈ store, s.token ≠ t) (hrec : rec.token = t) :
    deleteOne (store ++ [rec]) t = (1, store) := by
  induction store with
  | nil => simp [deleteOne, hrec]
  | cons s rest ih =>
      have hs : (s.token == t) = false := by
        simpa using hfresh s (by simp)
      have htail := ih (fun x hx => hfresh x (by simp [hx]))
      rw [List.cons_append, deleteOne, if_neg (by simp [hs]), htail]

/-- A store without the token is left untouched by `deleteOne`. -/
theorem deleteOne_of_countP_zero (store : List IAuth) (t : TokenStr)
    (h : store.countP (fun s => s.token == t) = 0) :
    deleteOne store t = (0, store) := by
  induction store with
  | nil => rfl
  | cons s rest ih =>
      rw [List.countP_cons] at h
      have hs : (s.token == t) = false := by
        by_cases hb : (s.token == t) = true
        · simp [hb] at h
        · simpa using hb
      have h0 : rest.countP (fun s => s.token == t) = 0 := by
        rw [hs, if_neg Bool.false_ne_true] at h
        omega
      rw [deleteOne, if_neg (by simp [hs]), ih h0]

/-- Deleting from a store with exactly one record for the token reports one
deletion and leaves no record for the token. -/
theorem deleteOne_of_countP_one (store : List IAuth) (t : TokenStr)
    (h : store.countP (fun s => s.token == t) = 1) :
    (deleteOne store t).1 = 1 ∧
    (deleteOne store t).2.countP (fun s => s.token == t) = 0 := by
  induction store with
  | nil => simp [List.countP_nil] at h
  | cons s rest ih =>
      rw [List.countP_cons] at h
      by_cases hs : (s.token == t) = true
      · have h0 : rest.countP (fun s => s.token == t) = 0 := by
          rw [hs, if_pos rfl] at h
          omega
        rw [deleteOne, if_pos hs]
        exact ⟨rfl, h0⟩
      · have hs' : (s.token == t) = false := by simpa using hs
        have h1 : rest.countP (fun s => s.token == t) = 1 := by
          rw [hs', if_neg Bool.false_ne_true] at h
          omega
        obtain ⟨ih1, ih2⟩ := ih h1
        rw [deleteOne, if_neg (by simp [hs'])]
        refine ⟨ih1, ?_⟩
        rw [List.countP_cons]
        simp [hs', ih2]

/-! ## Claims about the session manager -/

/-- Unfolding equation for `revoke` (the source binds the `deleteOne` result
once and reads its `deletedCount` and the remaining store). -/
theorem revoke_eq (store : List IAuth) (t : TokenStr) :
    revoke store t = ((deleteOne store t).1 == 1, (deleteOne store t).2) := rfl

/-- Demo user record used by the concrete witnesses. -/
def demoUser : IUser :=
  { id := "u1", name := "Demo User", username := "demouser",
    email := "a@b.c", password := "secret", permissions := [], roles := [] }

/-- Demo one-user store. -/
def demoUsers : List IUser := [demoUser]

/-- Demo session record for the token signed for `u1` at time 0. -/
def demoSession : IAuth :=
  { token := signJwt "u1" 0, userId := "u1", revoked := false, createdAt := 0 }

/-- C3 (code behavior, contradicting the claim): for every token on which
`verifyJwt` fails — malformed, expired or badly signed — `verifyToken`
returns the 500 `InternalError("Token verification failed", TOKEN_EXPIRED)`
built in its catch block, not the 401 `Unauthorized` the claim states. -/
theorem verifyToken_verification_failure_is_internalError
    (users : List IUser) (sessions : List IAuth) (t : TokenStr) (now : Nat)
    (h : verifyJwt t now = none) :
    verifyToken users sessions (some t) now =
      AuthResult.internalError tokenVerificationFailed := by
  rw [verifyToken, h]

/-- C3 witness: a token signed at time 0 and verified at time 3600 is expired;
the middleware answers with the 500 internal error. -/
theorem verifyToken_verification_failure_is_internalError_witness :
    verifyJwt (TokenStr.signed "u1" 0) 3600 = none ∧
    verifyToken [] [] (some (TokenStr.signed "u1" 0)) 3600 =
      AuthResult.internalError tokenVerificationFailed :=
  ⟨rfl, verifyToken_verification_failure_is_internalError [] [] _ 3600 rfl⟩

/-- C4 (lifecycle; the one-hour clause contradicts the claim): a token minted
by a successful `login` authenticates to the logged-in identity while the
hour runs and the session is live; after `revoke` it is a 401; at or past one
hour the expired signature makes `verifyJwt` throw, and the middleware
answers with the 500 internal error instead of the 401 the claim states. -/
theorem login_token_lifecycle
    (comparePassword : String → String → Bool) (users : List IUser)
    (sessions : List IAuth) (email password : String) (t0 : Nat) (u : IUser)
    (tok : TokenStr) (sessions2 : List IAuth) (now : Nat)
    (hu : findOneByEmail users email = some u)
    (hid : findById users u.id = some u)
    (hfresh : ∀ s ∈ sessions, s.token ≠ tok)
    (hlogin : login comparePassword users sessions email password t0
      = .ok (tok, sessions2)) :
    (now < t0 + 3600 →
      verifyToken users sessions2 (some tok) now = AuthResult.ok (some u)) ∧
    (now < t0 + 3600 →
      verifyToken users (revoke sessions2 tok).2 (some tok) now =
        AuthResult.unauthorized invalidCredentialsAuth) ∧
    (t0 + 3600 ≤ now →
      verifyToken users sessions2 (some tok) now =
        AuthResult.internalError tokenVerificationFailed) := by
  rw [login, hu] at hlogin
  dsimp only at hlogin
  by_cases hcmp : comparePassword password u.password = true
  case neg =>
    rw [if_neg hcmp] at hlogin
    exact absurd hlogin (by simp)
  case pos =>
  rw [if_pos hcmp] at hlogin
  injection hlogin with hpair
  injection hpair with htok hsess
  subst htok
  subst hsess
  have hrec : ({ token := signJwt u.id t0, userId := u.id, revoked := false,
                 createdAt := t0 } : IAuth).token = signJwt u.id t0 := rfl
  refine ⟨?_, ?_, ?_⟩
  · intro hnow
    have hver : verifyJwt (signJwt u.id t0) now = some u.id := by
      simp [signJwt, verifyJwt, hnow]
    rw [verifyToken, hver, findValid_append_fresh sessions _ _ hfresh hrec rfl]
    dsimp only
    rw [hid]
  · intro hnow
    have hver : verifyJwt (signJwt u.id t0) now = some u.id := by
      simp [signJwt, verifyJwt, hnow]
    have hdel := deleteOne_append_fresh sessions _ _ hfresh hrec
    rw [verifyToken, hver]
    dsimp only
    rw [revoke_eq]
    dsimp only
    rw [hdel]
    dsimp only
    rw [findValid_none_of_fresh sessions _ hfresh]
  · intro hnow
    have hver : verifyJwt (signJwt u.id t0) now = none := by
      simp only [signJwt, verifyJwt, if_neg (by omega : ¬ now < t0 + 3600)]
    rw [verifyToken, hver]

/-- C4 witness: in the one-user demo store, logging in at time 0 yields the
token signed for `u1` at 0, and at time 10 that token authenticates back to
the demo user. -/
theorem login_token_lifecycle_witness :
    verifyToken demoUsers [demoSession] (some (signJwt "u1" 0)) 10 =
      AuthResult.ok (some demoUser) :=
  (login_token_lifecycle (fun _ _ => true) demoUsers [] "a@b.c" "pw" 0 demoUser
    (signJwt "u1" 0) [demoSession] 10 rfl rfl (by simp) rfl).1 (by omega)

/-- `loginFails`: the login attempt fails — either no identity carries the
email, or the hash comparison rejects the secret. -/
def loginFails (comparePassword : String → String → Bool) (users : List IUser)
    (email password : String) : Bool :=
  match findOneByEmail users email with
  | none => true
  | some u => !(comparePassword password u.password)

/-- Every failing login produces exactly the one shared error value. -/
theorem login_eq_error_of_fails (comparePassword : String → String → Bool)
    (users : List IUser) (sessions : List IAuth) (email password : String)
    (now : Nat) (h : loginFails comparePassword users email password = true) :
    login comparePassword users sessions email password now
      = .error invalidCredentialsLogin := by
  rw [loginFails] at h
  rw [login]
  cases hfind : findOneByEmail users email with
  | none => rfl
  | some u =>
      rw [hfind] at h
      dsimp only at h ⊢
      simp only [Bool.not_eq_true'] at h
      rw [h]
      rfl

/-- C5: the two failure causes of `issue` — unknown email, wrong secret — are
observationally indistinguishable: both runs fail with one and the same error
value, whose message is `Invalid credentials` and whose code is
`INVALID_CREDENTIALS` (4003). -/
theorem login_failure_indistinguishable
    (comparePassword : String → String → Bool) (users : List IUser)
    (s1 s2 : List IAuth) (e1 p1 e2 p2 : String) (t1 t2 : Nat)
    (h1 : loginFails comparePassword users e1 p1 = true)
    (h2 : loginFails comparePassword users e2 p2 = true) :
    ∃ err : HttpErrorV,
      login comparePassword users s1 e1 p1 t1 = .error err ∧
      login comparePassword users s2 e2 p2 t2 = .error err ∧
      err.message = "Invalid credentials" ∧
      err.errorCode = ErrorCode.INVALID_CREDENTIALS :=
  ⟨invalidCredentialsLogin,
    login_eq_error_of_fails comparePassword users s1 e1 p1 t1 h1,
    login_eq_error_of_fails comparePassword users s2 e2 p2 t2 h2,
    rfl, rfl⟩

/-- C5 witness: with the demo store (one user `a@b.c`, stored hash `secret`)
and equality as the hash check, an unknown email and a wrong secret both
fail, and the theorem yields one shared error value for the two runs. -/
theorem login_failure_indistinguishable_witness :
    loginFails (fun p h => p == h) demoUsers "ghost@x" "pw" = true ∧
    loginFails (fun p h => p == h) demoUsers "a@b.c" "wrong" = true ∧
    (∃ err : HttpErrorV,
      login (fun p h => p == h) demoUsers [] "ghost@x" "pw" 0 = .error err ∧
      login (fun p h => p == h) demoUsers [] "a@b.c" "wrong" 0 = .error err ∧
      err.message = "Invalid credentials" ∧
      err.errorCode = ErrorCode.INVALID_CREDENTIALS) :=
  ⟨rfl, rfl,
    login_failure_indistinguishable (fun p h => p == h) demoUsers [] []
      "ghost@x" "pw" "a@b.c" "wrong" 0 0 rfl rfl⟩

/-- C7 counterexample: a store with two live sessions carrying the same token
(two logins of one identity within the same second yield the identical signed
token) answers true on the first and true again on the second revoke, since
`deleteOne` removes a single document per call; the claim predicts false for
the second call on a token that had a live session record. -/
theorem revoke_twice_true_counterexample :
    (revoke [demoSession, demoSession] (signJwt "u1" 0)).1 = true ∧
    (revoke (revoke [demoSession, demoSession] (signJwt "u1" 0)).2
      (signJwt "u1" 0)).1 = true := by
  decide

/-- C7 amended: `revoke` never fails and, for a token with exactly one live
session record, returns true then false on two successive calls; for a token
with no record it returns false and leaves the store untouched. -/
theorem revoke_unique_idempotent (store : List IAuth) (t : TokenStr) :
    (store.countP (fun s => s.token == t) = 1 →
      (revoke store t).1 = true ∧ (revoke (revoke store t).2 t).1 = false) ∧
    (store.countP (fun s => s.token == t) = 0 →
      (revoke store t).1 = false ∧ (revoke store t).2 = store) := by
  constructor
  · intro h1
    obtain ⟨hd1, hd2⟩ := deleteOne_of_countP_one store t h1
    refine ⟨by rw [revoke_eq, hd1]; rfl, ?_⟩
    have h2 : (revoke store t).2.countP (fun s => s.token == t) = 0 := by
      rw [revoke_eq]
      exact hd2
    have hdel := deleteOne_of_countP_zero (revoke store t).2 t h2
    rw [revoke_eq, hdel]
    rfl
  · intro h0
    have hdel := deleteOne_of_countP_zero store t h0
    rw [revoke_eq, hdel]
    exact ⟨rfl, rfl⟩

/-- C7 amended witness: a single live session for the token gives true on the
first revoke and false on the second. -/
theorem revoke_unique_idempotent_witness :
    ([demoSession].countP (fun s => s.token == signJwt "u1" 0) = 1) ∧
    ((revoke [demoSession] (signJwt "u1" 0)).1 = true ∧
     (revoke (revoke [demoSession] (signJwt "u1" 0)).2 (signJwt "u1" 0)).1
       = false) :=
  ⟨by decide,
    (revoke_unique_idempotent [demoSession] (signJwt "u1" 0)).1 (by decide)⟩

/-! ## User controller (`user.controller.ts`) -/

/-- The parsed `UpdateUserInput` body: every field optional; a present
`roles` key (even an empty list) is the truthy `userData.roles` the
self-demotion guard tests. -/
structure UpdateUserInput where
  name : Option String
  username : Option String
  email : Option String
  password : Option String
  roles : Option (List String)
  permissions : Option (List String)
  deriving DecidableEq, Repr

/-- `findByIdAndUpdate(id, data, { new: true })`: fields present in the patch
replace the stored ones. -/
def applyUpdate (u : IUser) (d : UpdateUserInput) : IUser :=
  { u with
    name := d.name.getD u.name,
    username := d.username.getD u.username,
    email := d.email.getD u.email,
    password := d.password.getD u.password,
    roles := d.roles.getD u.roles,
    permissions := d.permissions.getD u.permissions }

/-- Outcome of a user-controller call. -/
inductive ControllerResult where
  | conflict (e : HttpErrorV)
  | notFound (e : HttpErrorV)
  | okUser (u : IUser)
  | okDeleted
  deriving DecidableEq, Repr

/-- The `ConflictError("User cannot modify their own roles", SELF_DEMOTION)`. -/
def selfDemotionConflict : HttpErrorV :=
  { message := "User cannot modify their own roles", statusCode := 409,
    errorCode := ErrorCode.SELF_DEMOTION }

/-- The `ConflictError("Users cannot delete their own account",
SELF_DEMOTION)`. -/
def selfDeletionConflict : HttpErrorV :=
  { message := "Users cannot delete their own account", statusCode := 409,
    errorCode := ErrorCode.SELF_DEMOTION }

/-- The `NotFoundError("User not found", DOCUMENT_NOT_FOUND)`. -/
def userNotFound : HttpErrorV :=
  { message := "User not found", statusCode := 404,
    errorCode := ErrorCode.DOCUMENT_NOT_FOUND }

/-- `updateUser` of `user.controller.ts`: the self-demotion guard
(`req.params.id === req.currentUser.id && userData.roles`) answers 409
before the service call; otherwise `findByIdAndUpdate` patches the record
and returns it, and an unknown id is a 404. -/
def updateUser (store : List IUser) (paramsId : String) (currentUser : IUser)
    (userData : UpdateUserInput) : ControllerResult × List IUser :=
  if paramsId = currentUser.id ∧ userData.roles.isSome then
    (.conflict selfDemotionConflict, store)
  else
    match store.find? (fun v => v.id == paramsId) with
    | none => (.notFound userNotFound, store)
    | some u =>
        let u2 := applyUpdate u userData
        (.okUser u2, store.map (fun v => if v.id == paramsId then u2 else v))

/-- `deleteUser` of `user.controller.ts`: the self-deletion guard
(`req.params.id === req.currentUser.id`) answers 409 before the service
call; otherwise `findByIdAndDelete` removes the record, and an unknown id is
a 404. -/
def deleteUser (store : List IUser) (paramsId : String) (currentUser : IUser) :
    ControllerResult × List IUser :=
  if paramsId = currentUser.id then
    (.conflict selfDeletionConflict, store)
  else
    match store.find? (fun v => v.id == paramsId) with
    | none => (.notFound userNotFound, store)
    | some _ => (.okDeleted, store.eraseP (fun v => v.id == paramsId))

/-- C8: against its own user id, an update that carries a roles change is
answered with the 409 self-demotion conflict and a delete with the 409
self-deletion conflict, both before the repository path runs: the store comes
back unchanged whatever it holds, and the guards read nothing besides the two
ids and the patch — in particular no permission data. -/
theorem self_modification_conflict (store : List IUser) (cu : IUser)
    (d : UpdateUserInput) :
    (d.roles.isSome →
      updateUser store cu.id cu d = (.conflict selfDemotionConflict, store)) ∧
    deleteUser store cu.id cu = (.conflict selfDeletionConflict, store) := by
  constructor
  · intro hroles
    rw [updateUser, if_pos ⟨rfl, hroles⟩]
  · rw [deleteUser, if_pos rfl]

/-- C8 witness: the demo user patching its own record with `roles: []` is a
409 self-demotion, and deleting its own record is a 409 self-deletion; the
demo store is untouched in both runs. -/
theorem self_modification_conflict_witness :
    (some ([] : List String)).isSome = true ∧
    (updateUser demoUsers "u1" demoUser
       { name := none, username := none, email := none, password := none,
         roles := some [], permissions := none }
       = (.conflict selfDemotionConflict, demoUsers) ∧
     deleteUser demoUsers "u1" demoUser
       = (.conflict selfDeletionConflict, demoUsers)) :=
  ⟨rfl,
    (self_modification_conflict demoUsers demoUser
      { name := none, username := none, email := none, password := none,
        roles := some [], permissions := none }).1 rfl,
    (self_modification_conflict demoUsers demoUser
      { name := none, username := none, email := none, password := none,
        roles := some [], permissions := none }).2⟩

/-! ## Serialization (`user.model.ts` `toJSON`, `auth.controller.ts` login
response) -/

/-- A JSON field value of a serialized user document. -/
inductive JsonVal where
  | str (s : String)
  | arr (l : List String)
  deriving DecidableEq, Repr

/-- `this.toObject()`: every schema field of the document as a key/value
pair. -/
def toObject (u : IUser) : List (String × JsonVal) :=
  [("id", .str u.id), ("name", .str u.name), ("username", .str u.username),
   ("email", .str u.email), ("password", .str u.password),
   ("permissions", .arr u.permissions), ("roles", .arr u.roles)]

/-- `UserSchema.methods.toJSON`: `delete obj.password` — the object without
the password key.  Every response that returns user documents serializes
them through this method. -/
def toJSON (u : IUser) : List (String × JsonVal) :=
  (toObject u).filter (fun kv => kv.1 ≠ "password")

/-- The login success response body (`auth.controller.ts`):
`{ sub, email, username }`. -/
def loginResponse (u : IUser) : List (String × JsonVal) :=
  [("sub", .str u.id), ("email", .str u.email), ("username", .str u.username)]

/-- C9: outward serialization never carries the password field: no key of
`toJSON` (or of the login response) is `password`, and the serialized output
is one and the same value whatever hash the stored record holds. -/
theorem toJSON_omits_password (u : IUser) (p1 p2 : String) :
    (∀ kv ∈ toJSON u, kv.1 ≠ "password") ∧
    toJSON { u with password := p1 } = toJSON { u with password := p2 } ∧
    (∀ kv ∈ loginResponse u, kv.1 ≠ "password") ∧
    loginResponse { u with password := p1 }
      = loginResponse { u with password := p2 } := by
  refine ⟨?_, rfl, ?_, rfl⟩
  · intro kv hkv
    simpa using (List.mem_filter.1 hkv).2
  · intro kv hkv
    simp only [loginResponse, List.mem_cons, List.not_mem_nil, or_false] at hkv
    rcases hkv with h | h | h <;> subst h <;> simp

/-! ## Frame property of the policy table -/

/-- One request against the shared global table: the middleware reads the
table, copies the matched entry (`{...baseMethod, permissions:
[...baseMethod.permissions]}`), pushes the module token only onto that
per-request copy and never assigns into the table, so the table after the
call is the table it read. -/
def decideStep (table : List IPermission)
    (req : CurrentUser × String × String) : Decision × List IPermission :=
  (getPermissionsOn table req.1 req.2.1 req.2.2, table)

/-- A sequence of requests against the shared table, threading its state. -/
def runRequests (table : List IPermission) :
    List (CurrentUser × String × String) → List Decision × List IPermission
  | [] => ([], table)
  | r :: rs =>
      let step := decideStep table r
      let rest := runRequests step.2 rs
      (step.1 :: rest.1, rest.2)

/-- Any request sequence leaves any table as it was and decides each request
against that same table. -/
theorem runRequests_spec (table : List IPermission)
    (reqs : List (CurrentUser × String × String)) :
    runRequests table reqs =
      (reqs.map (fun r => getPermissionsOn table r.1 r.2.1 r.2.2), table) := by
  induction reqs generalizing table with
  | nil => rfl
  | cons r rs ih => simp [runRequests, decideStep, ih]

/-- C10: after any sequence of permission decisions the global policy table
holds exactly its hardcoded entries, and every decision in the sequence
equals the decision of the pristine table — no request observes another
request's module token. -/
theorem policy_table_unchanged (reqs : List (CurrentUser × String × String)) :
    (runRequests permissions reqs).2 = permissions ∧
    (runRequests permissions reqs).1 =
      reqs.map (fun r => getPermissions r.1 r.2.1 r.2.2) := by
  rw [runRequests_spec]
  exact ⟨rfl, rfl⟩

/-- C9 witness: the id field of the serialized demo user is present and its
key differs from `password`. -/
theorem toJSON_omits_password_witness :
    ("id", JsonVal.str "u1") ∈ toJSON demoUser ∧
    ("id", JsonVal.str "u1").1 ≠ "password" :=
  ⟨by decide, (toJSON_omits_password demoUser "a" "b").1 _ (by decide)⟩

end ShopCore
